import Mathlib

/-!
Verification development for the segee CLI (src/segee_cli/main.py).

The CLI drives an external 16-element segment tree (sum/min/max variant).
Pure shallow embedding:
* `ExtVal` models the extended-real element domain (integers plus the
  infinity sentinels accepted by `parse_value`).
* `pyInt` models Python's `int(token)` on whitespace-free tokens
  (optional sign, decimal digits, single underscores between digits).
* `parse_parts` / `parse_command` model `parse_command` from main.py;
  the in-place tree mutation is made explicit by returning the new tree.
* `interactive_step` models one turn of `interactive_mode`'s loop body.
* `get_tree_value`, `contentLine`, `draw_tree_structure` model the
  pyramid renderer; rendered lines are lists of `Seg`ments so that the
  visible width (ANSI color codes stripped) is measurable.

The segment tree itself lives in the external `segee` package, so its
adapter surface (element get/set, range aggregates, fresh initialisation)
is modelled from the spec, marked `Modelled from the spec:` below.
-/

namespace SegeeCLI

/-- Modelled from the spec: the element domain of the aggregate structure
is the extended reals — ordinary integers plus the positive/negative
infinity sentinels (`spec.md` section 3). -/
inductive ExtVal where
  | fin (n : Int)
  | posInf
  | negInf
deriving DecidableEq, Repr

/-- String rendering of an element, matching Python `str`: integers print
in decimal and the infinities print as `inf` / `-inf`. -/
def extValStr : ExtVal → String
  | .fin n => toString n
  | .posInf => "inf"
  | .negInf => "-inf"

/-- Modelled from the spec: addition on the extended reals, used by the
`addAt` adapter operation (`set(index, get(index)+delta)`, spec section 6).
The spec leaves `inf + (-inf)` unspecified; this model lets the left
infinite operand dominate. -/
def extAdd : ExtVal → ExtVal → ExtVal
  | .fin a, .fin b => .fin (a + b)
  | .posInf, _ => .posInf
  | .negInf, _ => .negInf
  | .fin _, .posInf => .posInf
  | .fin _, .negInf => .negInf

/-- Modelled from the spec: binary minimum on the extended reals. -/
def extMin : ExtVal → ExtVal → ExtVal
  | .posInf, b => b
  | a, .posInf => a
  | .negInf, _ => .negInf
  | _, .negInf => .negInf
  | .fin a, .fin b => .fin (min a b)

/-- Modelled from the spec: binary maximum on the extended reals. -/
def extMax : ExtVal → ExtVal → ExtVal
  | .negInf, b => b
  | a, .negInf => a
  | .posInf, _ => .posInf
  | _, .posInf => .posInf
  | .fin a, .fin b => .fin (max a b)

/-- Elements of the half-open sub-range `[l, r)` of the element list. -/
def rangeSliceN (tree : List ExtVal) (l r : Nat) : List ExtVal :=
  (tree.take r).drop l

/-- Modelled from the spec: the sum variant's `rangeAggregate` over
`[l, r)` (identity 0). -/
def sumAgg (tree : List ExtVal) (l r : Nat) : ExtVal :=
  (rangeSliceN tree l r).foldl extAdd (.fin 0)

/-- Modelled from the spec: the min variant's `rangeAggregate` over
`[l, r)` (identity positive infinity). -/
def minAgg (tree : List ExtVal) (l r : Nat) : ExtVal :=
  (rangeSliceN tree l r).foldl extMin .posInf

/-- Modelled from the spec: the max variant's `rangeAggregate` over
`[l, r)` (identity negative infinity). -/
def maxAgg (tree : List ExtVal) (l r : Nat) : ExtVal :=
  (rangeSliceN tree l r).foldl extMax .negInf

/-- The three segment-tree variants offered by `select_tree_type`. -/
inductive TreeType where
  | sum
  | min
  | max
deriving DecidableEq, Repr

/-- Variant dispatch for a range aggregate, as the `tree_type` if/elif
chain in `parse_command` performs it (`tree.sum` / `tree.minimum` /
`tree.maximum`), with `Int` bounds as parsed from the command. -/
def treeAgg (tt : TreeType) (tree : List ExtVal) (l r : Int) : ExtVal :=
  match tt with
  | .sum => sumAgg tree l.toNat r.toNat
  | .min => minAgg tree l.toNat r.toNat
  | .max => maxAgg tree l.toNat r.toNat

/-- Numeric value of an ASCII digit character. -/
def digitVal (c : Char) : Nat := c.toNat - 48

/-- Digit-run parser behind `pyInt`: decimal digits with single
underscores allowed between digits (Python's `int` literal grammar);
`seen` records whether the previous character was a digit. -/
def pyDigitsAux : List Char → Nat → Bool → Option Nat
  | [], acc, seen => if seen then some acc else none
  | c :: cs, acc, _seen =>
    if c.isDigit then pyDigitsAux cs (10 * acc + digitVal c) true
    else if c = '_' && _seen then pyDigitsAux cs acc false
    else none

/-- Parse a non-empty ASCII digit run (underscore separators allowed). -/
def pyDigits (cs : List Char) : Option Nat := pyDigitsAux cs 0 false

/-- Python's `int(token)` on a whitespace-free token: an optional single
sign followed by digits, `none` when the token is not a valid integer
literal (the `ValueError` case). -/
def pyInt (s : String) : Option Int :=
  match s.data with
  | '+' :: cs => (pyDigits cs).map (fun n => (n : Int))
  | '-' :: cs => (pyDigits cs).map (fun n => -(n : Int))
  | cs => (pyDigits cs).map (fun n => (n : Int))

/-- Python's `str.lower()` on the ASCII command/value tokens. -/
def pyLower (s : String) : String := String.mk (s.data.map Char.toLower)

/-- Python's `str.startswith(pre)`. -/
def pyStartsWith (s pre : String) : Bool := pre.data.isPrefixOf s.data

/-- Python's `str.strip()`: drop leading and trailing whitespace. -/
def pyStrip (s : String) : String :=
  String.mk (((s.data.dropWhile Char.isWhitespace).reverse.dropWhile
    Char.isWhitespace).reverse)

/-- `parse_value` from main.py: case-insensitive `inf`/`infinity` and
`-inf`/`-infinity` map to the infinities, everything else goes through
`int(value_str)`; `none` is the raised `ValueError`. -/
def parse_value (s : String) : Option ExtVal :=
  if pyLower s = "inf" ∨ pyLower s = "infinity" then some .posInf
  else if pyLower s = "-inf" ∨ pyLower s = "-infinity" then some .negInf
  else (pyInt s).map .fin

/-- Message produced by the `except ValueError` handler in
`parse_command` when `int()` rejects a token. -/
def invalidFormatMsg (tok : String) : String :=
  "Invalid format: invalid literal for int() with base 10: '" ++ tok ++
    "' (ensure all numbers are integers)"

/-- The `Index Error` message of the set/add branches. -/
def indexErrorMsg (i : Int) (n : Nat) : String :=
  "Index Error: " ++ toString i ++ " is out of range [0, " ++
    toString (n - 1) ++ "] (size=" ++ toString n ++ ")"

/-- The `Range Error` message of the query branch. -/
def rangeErrorMsg (l r : Int) (n : Nat) : String :=
  "Range Error: [" ++ toString l ++ ", " ++ toString r ++
    "] is invalid for size " ++ toString n ++ " (valid: [0, " ++
    toString (n - 1) ++ "])"

/-- The usage message for set/add with the wrong argument count;
`got` is `len(parts) - 1`. -/
def usageMsgIdx (command : String) (got : Nat) : String :=
  "Usage: " ++ command ++ " <index> <value> (need exactly 2 arguments, got "
    ++ toString got ++ ")"

/-- The usage message for query with the wrong argument count. -/
def usageMsgRange (command : String) (got : Nat) : String :=
  "Usage: " ++ command ++ " <left> <right> (need exactly 2 arguments, got "
    ++ toString got ++ ")"

/-- The unknown-command message. -/
def unknownMsg (command : String) : String :=
  "Unknown command: '" ++ command ++ "'. Type '/help' for available commands."

/-- Result of `parse_command`. The Python function returns `None`
(`silent`), one of the sentinel strings `"reset"`, `"home"`,
`"show_help"`, `"quit"`, or any other string (query results and error
messages), which `interactive_mode` dispatches on. -/
inductive CmdResult where
  | silent
  | reset
  | home
  | showHelp
  | quit
  | output (msg : String)
deriving DecidableEq, Repr

/-- Core of `parse_command` from main.py, after `cmd.strip().split()`
has produced `parts`. The tree the Python code mutates in place is
passed in and returned explicitly; element get/set on it are the
adapter operations modelled from the spec (list read / `List.set`). -/
def parse_parts (parts : List String) (tree : List ExtVal) (tt : TreeType) :
    CmdResult × List ExtVal :=
  match parts with
  | [] => (.silent, tree)
  | w :: rest =>
    let command := pyLower w
    if pyStartsWith command "/" then
      if command = "/reset" then (.reset, tree)
      else if command = "/home" then (.home, tree)
      else if command = "/help" then (.showHelp, tree)
      else (.output "Unknown slash command. Try /help for available commands.",
            tree)
    else if (command = "set" ∨ command = "s") ∧ rest.length = 2 then
      match pyInt (rest.getD 0 "") with
      | none => (.output (invalidFormatMsg (rest.getD 0 "")), tree)
      | some index =>
        match parse_value (rest.getD 1 "") with
        | none => (.output (invalidFormatMsg (rest.getD 1 "")), tree)
        | some value =>
          if 0 ≤ index ∧ index < (tree.length : Int) then
            (.silent, tree.set index.toNat value)
          else (.output (indexErrorMsg index tree.length), tree)
    else if (command = "add" ∨ command = "a") ∧ rest.length = 2 then
      match pyInt (rest.getD 0 "") with
      | none => (.output (invalidFormatMsg (rest.getD 0 "")), tree)
      | some index =>
        match parse_value (rest.getD 1 "") with
        | none => (.output (invalidFormatMsg (rest.getD 1 "")), tree)
        | some value =>
          if 0 ≤ index ∧ index < (tree.length : Int) then
            (.silent,
             tree.set index.toNat (extAdd (tree.getD index.toNat (.fin 0)) value))
          else (.output (indexErrorMsg index tree.length), tree)
    else if (command = "query" ∨ command = "q") ∧ rest.length = 2 then
      match pyInt (rest.getD 0 "") with
      | none => (.output (invalidFormatMsg (rest.getD 0 "")), tree)
      | some left =>
        match pyInt (rest.getD 1 "") with
        | none => (.output (invalidFormatMsg (rest.getD 1 "")), tree)
        | some right =>
          if 0 ≤ left ∧ left < right ∧ right ≤ (tree.length : Int) then
            (.output (extValStr (treeAgg tt tree left right)), tree)
          else (.output (rangeErrorMsg left right tree.length), tree)
    else if command = "quit" ∨ command = "exit" then (.quit, tree)
    else if command = "set" ∨ command = "s" ∨ command = "add" ∨ command = "a" then
      if rest.length ≠ 2 then (.output (usageMsgIdx command rest.length), tree)
      else (.output "Invalid arguments - check that index and value are integers",
            tree)
    else if command = "query" ∨ command = "q" then
      if rest.length ≠ 2 then (.output (usageMsgRange command rest.length), tree)
      else (.output "Invalid arguments - check that left and right are integers",
            tree)
    else (.output (unknownMsg command), tree)

/-- Splitter behind `pySplit`: `acc` accumulates the current token's
characters in reverse. -/
def splitWsAux : List Char → List Char → List String
  | [], acc => if acc.isEmpty then [] else [String.mk acc.reverse]
  | c :: cs, acc =>
    if c.isWhitespace then
      if acc.isEmpty then splitWsAux cs []
      else String.mk acc.reverse :: splitWsAux cs []
    else splitWsAux cs (c :: acc)

/-- Python's `str.split()` with no arguments: split on whitespace runs,
dropping empty pieces. -/
def pySplit (s : String) : List String := splitWsAux s.data []

/-- `parse_command` from main.py on a raw input line
(`cmd.strip().split()` feeding the dispatch on `parts`). -/
def parse_command (cmd : String) (tree : List ExtVal) (tt : TreeType) :
    CmdResult × List ExtVal :=
  parse_parts (pySplit (pyStrip cmd)) tree tt

/-- Modelled from the spec: `tree_class(16)` — a freshly created
structure has its 16 elements at 0 (spec section 8: a freshly reset
structure is all-zero). -/
def freshTree : List ExtVal := List.replicate 16 (.fin 0)

/-- The mutable state of one interactive session: the live tree and the
command history. -/
structure Session where
  tree : List ExtVal
  commands : List String
deriving DecidableEq, Repr

/-- Outcome of one turn of the interactive loop. -/
inductive StepOut where
  | next (s : Session)
  | quit
  | home
deriving DecidableEq, Repr

/-- One turn of `interactive_mode`'s loop body on input line `cmd`:
blank input is skipped, then the parse result is dispatched exactly as
the Python if/elif chain does (quit / reset / home / show_help /
history append). -/
def interactive_step (tt : TreeType) (sess : Session) (cmd : String) : StepOut :=
  if pyStrip cmd = "" then .next sess
  else
    match parse_command cmd sess.tree tt with
    | (.quit, _) => .quit
    | (.reset, _) => .next ⟨freshTree, []⟩
    | (.home, _) => .home
    | (.showHelp, t2) => .next ⟨t2, sess.commands⟩
    | (.silent, t2) => .next ⟨t2, sess.commands ++ ["> " ++ cmd]⟩
    | (.output msg, t2) => .next ⟨t2, sess.commands ++ ["> " ++ cmd, msg]⟩

/-- The exception kinds caught by `get_tree_value`'s handler
(`AttributeError, IndexError, ValueError, TypeError`). -/
inductive AdapterErr where
  | attributeErr
  | indexErr
  | valueErr
  | typeErr
deriving DecidableEq, Repr

/-- Modelled from the spec: the aggregate-structure adapter the renderer
consumes (spec section 6). `elems` are the 16 user elements (leaf reads
and `len`), `internalData` is `some` exactly when the object has both
`_data` and `_offset` attributes (the optional introspection
capability), `variant` selects the `prod` aggregate, and `prodExc`
models an inconsistent adapter whose `prod` calls raise the given
exception. -/
structure TreeAdapter where
  elems : List ExtVal
  internalData : Option (List ExtVal)
  prodExc : Option AdapterErr
  variant : TreeType

/-- The value `tree.prod(l, r)` returns when it does not raise. -/
def prodVal (t : TreeAdapter) (l r : Nat) : ExtVal :=
  match t.variant with
  | .sum => sumAgg t.elems l r
  | .min => minAgg t.elems l r
  | .max => maxAgg t.elems l r

/-- `tree.prod(l, r)` as a fallible call. -/
def prodE (t : TreeAdapter) (l r : Nat) : Except AdapterErr ExtVal :=
  match t.prodExc with
  | some e => .error e
  | none => .ok (prodVal t l r)

/-- Body of the `try:` block of `get_tree_value` for internal nodes:
introspection of `_data` when available (falling through to the
fallback when the computed node index is out of the array), else the
per-level hand-enumerated range queries. -/
def getTreeValueTry (t : TreeAdapter) (level pos : Nat) :
    Except AdapterErr String :=
  let fallback : Except AdapterErr String :=
    let n := t.elems.length
    if level = 0 then (prodE t 0 n).map extValStr
    else if level = 1 then
      let mid := n / 2
      if pos = 0 then (prodE t 0 mid).map extValStr
      else (prodE t mid n).map extValStr
    else if level = 2 then
      let quarter := n / 4
      (prodE t (pos * quarter) ((pos + 1) * quarter)).map extValStr
    else if level = 3 then
      let eighth := n / 8
      (prodE t (pos * eighth) ((pos + 1) * eighth)).map extValStr
    else .ok "0"
  match t.internalData with
  | some data =>
    let internal_idx :=
      if level = 0 then 0
      else if level = 1 then 1 + pos
      else if level = 2 then 3 + pos
      else if level = 3 then 7 + pos
      else 0
    if internal_idx < data.length then
      .ok (extValStr (data.getD internal_idx (.fin 0)))
    else fallback
  | none => fallback

/-- `get_tree_value` from `draw_tree_structure`: `"0"` with no structure
bound, a direct element read at the leaf level, and for internal levels
the `try:` body with every caught exception degrading to `"?"`. -/
def get_tree_value (tree : Option TreeAdapter) (level pos : Nat) : String :=
  match tree with
  | none => "0"
  | some t =>
    if level = 4 then
      if pos < t.elems.length then extValStr (t.elems.getD pos (.fin 0))
      else "0"
    else
      match getTreeValueTry t level pos with
      | .ok s => s
      | .error _ => "?"

/-- Modelled piece of a rendered line: either plain text or text wrapped
in ANSI color codes (border gray or index yellow). Only the wrapped
text itself contributes to the visible width. -/
inductive Seg where
  | plain (s : String)
  | colored (s : String)
deriving DecidableEq, Repr

/-- Visible width of one segment (color escape codes stripped). -/
def segWidth : Seg → Nat
  | .plain s => s.length
  | .colored s => s.length

/-- Visible width of a rendered line. -/
def visWidth (l : List Seg) : Nat := (l.map segWidth).sum

/-- Python `" " * n`. -/
def spacesN (n : Nat) : String := String.mk (List.replicate n ' ')

/-- Python `" " * k` on an int: negative counts yield the empty string. -/
def spacesI (k : Int) : String := spacesN k.toNat

/-- `LEAF_CELL_WIDTH` from main.py. -/
def LEAF_CELL_WIDTH : Nat := 12

/-- `padding` in `draw_tree_structure` (no centering, left align). -/
def treePadding : Nat := 0

/-- `h_line`: a colored run of `cell_width - 1` box-drawing dashes. -/
def hLineSeg (cell_width : Nat) : Seg :=
  .colored (String.mk (List.replicate (cell_width - 1) '─'))

/-- The top border row (only emitted before level 0). -/
def topLine (cell_count cell_width : Nat) : List Seg :=
  if cell_count = 1 then
    [.plain (spacesN treePadding), .colored "┌", hLineSeg cell_width,
     .colored "┐"]
  else
    [.plain (spacesN treePadding), .colored "┌", hLineSeg cell_width] ++
      (List.range (cell_count - 1)).flatMap
        (fun _ => [.colored "┬", hLineSeg cell_width]) ++
      [.colored "┐"]

/-- A blank padding row of one level. -/
def emptyLine (cell_count cell_width : Nat) : List Seg :=
  [.plain (spacesN treePadding), .colored "│"] ++
    (List.range cell_count).flatMap
      (fun _ => [.plain (spacesN (cell_width - 1)), .colored "│"])

/-- The content row of one level: each cell centers its resolved value
with Python's floor-division padding arithmetic (an overlong value gets
empty pads and overflows its cell). -/
def contentLine (tree : Option TreeAdapter) (level_idx cell_count cell_width : Nat) :
    List Seg :=
  [.plain (spacesN treePadding), .colored "│"] ++
    (List.range cell_count).flatMap (fun i =>
      let value := get_tree_value tree level_idx i
      let value_padding : Int :=
        Int.fdiv ((cell_width : Int) - 1 - (value.length : Int)) 2
      let left_pad := value_padding
      let right_pad : Int :=
        (cell_width : Int) - 1 - (value.length : Int) - left_pad
      [.plain (spacesI left_pad), .plain value, .plain (spacesI right_pad),
       .colored "│"])

/-- The bottom border row of one level. -/
def bottomLine (cell_count cell_width : Nat) : List Seg :=
  if cell_count = 1 then
    [.plain (spacesN treePadding), .colored "└", hLineSeg cell_width,
     .colored "┘"]
  else
    [.plain (spacesN treePadding), .colored "└", hLineSeg cell_width] ++
      (List.range (cell_count - 1)).flatMap
        (fun _ => [.colored "┴", hLineSeg cell_width]) ++
      [.colored "┘"]

/-- The yellow leaf-index row appended after the last level. -/
def indexRow (cell_count cell_width : Nat) : List Seg :=
  [.plain (spacesN (treePadding + 1))] ++
    (List.range cell_count).flatMap (fun i =>
      let s := toString i
      let index_padding := (cell_width - 1 - s.length) / 2
      let left_pad := index_padding
      let right_pad := cell_width - 1 - s.length - left_pad
      [.plain (spacesN left_pad), .colored s, .plain (spacesN right_pad)] ++
        (if i < cell_count - 1 then [.plain " "] else []))

/-- The rows contributed by one `(level_idx, cell_count)` iteration of
the loop in `draw_tree_structure`; `cell_width` doubles going up
(`LEAF_CELL_WIDTH * 2 ^ (4 - level_idx)`). -/
def levelBlock (tree : Option TreeAdapter) (level_idx cell_count : Nat) :
    List (List Seg) :=
  let cell_width := LEAF_CELL_WIDTH * 2 ^ (5 - 1 - level_idx)
  (if level_idx = 0 then [topLine cell_count cell_width] else []) ++
    [emptyLine cell_count cell_width,
     contentLine tree level_idx cell_count cell_width,
     emptyLine cell_count cell_width,
     bottomLine cell_count cell_width]

/-- `draw_tree_structure` from main.py: `enumerate([1, 2, 4, 8, 16])`
drives the per-level blocks, then the leaf-index row is appended (its
guard `level_idx == len(levels) - 1` always holds after the loop, with
the loop's final `cell_count = 16` and `cell_width = 12`). -/
def draw_tree_structure (tree : Option TreeAdapter) : List (List Seg) :=
  ([(0, 1), (1, 2), (2, 4), (3, 8), (4, 16)].flatMap
      (fun p => levelBlock tree p.1 p.2)) ++
    [indexRow 16 LEAF_CELL_WIDTH]

/-- Membership of a result string in the parser's error-message taxonomy
(parse, index, range, usage, invalid-arguments, unknown-command and
unknown-slash-command errors), recognised by the fixed message prefixes
the code emits. -/
def IsErrorMsg (msg : String) : Prop :=
  pyStartsWith msg "Invalid format:" = true ∨
  pyStartsWith msg "Index Error:" = true ∨
  pyStartsWith msg "Range Error:" = true ∨
  pyStartsWith msg "Usage:" = true ∨
  pyStartsWith msg "Invalid arguments" = true ∨
  pyStartsWith msg "Unknown command:" = true ∨
  pyStartsWith msg "Unknown slash command." = true

/-- Concrete adapter whose first element needs 12 display characters,
one more than a leaf cell can center. -/
def wideAdapter : TreeAdapter :=
  ⟨ExtVal.fin 100000000000 :: List.replicate 15 (.fin 0), none, none, .sum⟩

/-- Concrete adapter exposing an internal node array of 31 fives. -/
def introAdapter : TreeAdapter :=
  ⟨List.replicate 16 (.fin 0), some (List.replicate 31 (.fin 5)), none, .sum⟩

/-- Concrete adapter without introspection whose `prod` calls raise. -/
def failAdapter : TreeAdapter :=
  ⟨List.replicate 16 (.fin 0), none, some .attributeErr, .sum⟩

theorem parse_parts_preserves (parts : List String) (tree : List ExtVal)
    (tt : TreeType) :
    (parse_parts parts tree tt).2 = tree ∨
      (parse_parts parts tree tt).1 = .silent := by
  cases parts with
  | nil => exact Or.inr rfl
  | cons w rest =>
    simp only [parse_parts]
    repeat' split
    all_goals first | exact Or.inl rfl | exact Or.inr rfl

theorem visWidth_append (a b : List Seg) :
    visWidth (a ++ b) = visWidth a + visWidth b := by
  simp [visWidth]

theorem visWidth_flatMap {α : Type} (xs : List α) (f : α → List Seg) :
    visWidth (xs.flatMap f) = (xs.map (fun x => visWidth (f x))).sum := by
  induction xs with
  | nil => simp [visWidth]
  | cons x xs ih => simp [List.flatMap_cons, visWidth_append, ih]

theorem spacesN_length (n : Nat) : (spacesN n).length = n := by
  simp [spacesN]

theorem spacesI_length (k : Int) : (spacesI k).length = k.toNat := by
  simp [spacesI, spacesN_length]

theorem cellWidth_eq (value : String) (w : Nat) (hw : 1 ≤ w)
    (hfit : value.length ≤ w - 1) :
    (spacesI (Int.fdiv ((w : Int) - 1 - (value.length : Int)) 2)).length +
      value.length +
      (spacesI ((w : Int) - 1 - (value.length : Int) -
        Int.fdiv ((w : Int) - 1 - (value.length : Int)) 2)).length + 1 = w := by
  have hd : ((w : Int) - 1 - (value.length : Int)) =
      ((w - 1 - value.length : Nat) : Int) := by omega
  rw [hd]
  have hfd : Int.fdiv (((w - 1 - value.length : Nat) : Int)) 2 =
      (((w - 1 - value.length) / 2 : Nat) : Int) := (Int.ofNat_fdiv _ 2).symm
  rw [hfd]
  rw [spacesI_length, spacesI_length]
  have hds : (w - 1 - value.length) / 2 ≤ w - 1 - value.length :=
    Nat.div_le_self _ _
  omega

theorem contentLine_width (tree : Option TreeAdapter) (L cc w : Nat)
    (hw : 1 ≤ w)
    (hfit : ∀ i, i < cc → (get_tree_value tree L i).length ≤ w - 1) :
    visWidth (contentLine tree L cc w) = 1 + cc * w := by
  rw [contentLine, visWidth_append, visWidth_flatMap]
  have hpre : visWidth [Seg.plain (spacesN treePadding), Seg.colored "│"] = 1 :=
    rfl
  rw [hpre]
  have hcells : ((List.range cc).map fun i => visWidth
      (let value := get_tree_value tree L i
       let value_padding : Int :=
         Int.fdiv ((w : Int) - 1 - (value.length : Int)) 2
       let left_pad := value_padding
       let right_pad : Int :=
         (w : Int) - 1 - (value.length : Int) - left_pad
       [.plain (spacesI left_pad), .plain value, .plain (spacesI right_pad),
        .colored "│"])) = (List.range cc).map fun _ => w := by
    apply List.map_congr_left
    intro i hi
    simp only [List.mem_range] at hi
    simp only [visWidth, List.map_cons, List.map_nil, List.sum_cons,
      List.sum_nil, segWidth]
    have hbar : ("│" : String).length = 1 := rfl
    rw [hbar]
    have := cellWidth_eq (get_tree_value tree L i) w hw (hfit i hi)
    omega
  rw [hcells]
  simp [List.map_const']

/-- C1: a query command with exactly two integer arguments yields the
`Range Error` result exactly when the bounds fail `0 ≤ left < right ≤ 16`
(so `left ≥ right`, `right > 16` and `left < 0` all error, the tree is
returned unchanged, never clamped), and valid bounds yield the
variant-specific aggregate of `[left, right)` as the textual result. -/
theorem claim1_query_range_error_iff (tree : List ExtVal) (tt : TreeType)
    (c a b : String) (l r : Int)
    (hc : pyLower c = "query" ∨ pyLower c = "q")
    (hn : tree.length = 16)
    (ha : pyInt a = some l) (hb : pyInt b = some r) :
    (¬(0 ≤ l ∧ l < r ∧ r ≤ 16) →
      parse_parts [c, a, b] tree tt = (.output (rangeErrorMsg l r 16), tree)) ∧
    ((0 ≤ l ∧ l < r ∧ r ≤ 16) →
      parse_parts [c, a, b] tree tt =
        (.output (extValStr (treeAgg tt tree l r)), tree)) := by
  rcases hc with h | h <;>
  · constructor <;> intro hcond <;>
    · simp [parse_parts, h, ha, hb, hn, hcond, pyStartsWith]

/-- Witness for C1 at the concrete valid query `q 0 16` on the all-zero
sum tree. -/
theorem claim1_witness :
    parse_parts ["q", "0", "16"] freshTree .sum = (.output "0", freshTree) := by
  have h := (claim1_query_range_error_iff freshTree .sum "q" "0" "16" 0 16
    (Or.inr rfl) rfl rfl rfl).2 (by norm_num)
  rw [h]
  rfl

/-- C2: a set or add command with exactly two parsed arguments updates
(or increments) the element and stays silent when `0 ≤ index < 16`, and
yields the `Index Error` result with the tree unmodified otherwise. -/
theorem claim2_set_add_index_validation (tree : List ExtVal) (tt : TreeType)
    (c a b : String) (i : Int) (v : ExtVal)
    (hn : tree.length = 16)
    (ha : pyInt a = some i) (hv : parse_value b = some v) :
    ((pyLower c = "set" ∨ pyLower c = "s") →
      (0 ≤ i ∧ i < 16 →
        parse_parts [c, a, b] tree tt = (.silent, tree.set i.toNat v)) ∧
      (¬(0 ≤ i ∧ i < 16) →
        parse_parts [c, a, b] tree tt = (.output (indexErrorMsg i 16), tree))) ∧
    ((pyLower c = "add" ∨ pyLower c = "a") →
      (0 ≤ i ∧ i < 16 →
        parse_parts [c, a, b] tree tt =
          (.silent, tree.set i.toNat (extAdd (tree.getD i.toNat (.fin 0)) v))) ∧
      (¬(0 ≤ i ∧ i < 16) →
        parse_parts [c, a, b] tree tt = (.output (indexErrorMsg i 16), tree))) := by
  constructor <;> rintro (h | h) <;>
  · constructor <;> intro hcond <;>
    · simp [parse_parts, h, ha, hv, hn, hcond, pyStartsWith]

/-- Witness for C2 at the concrete command `s 3 7` on the all-zero tree. -/
theorem claim2_witness :
    parse_parts ["s", "3", "7"] freshTree .sum =
      (.silent, freshTree.set (Int.toNat 3) (.fin 7)) :=
  ((claim2_set_add_index_validation freshTree .sum "s" "3" "7" 3 (.fin 7)
    rfl rfl rfl).1 (Or.inr rfl)).1 (by norm_num)

/-- C3: an input line whose parse yields an error result leaves the tree
unchanged and the loop continues, recording only the echoed line and the
error message in the history. -/
theorem claim3_error_preserves_session (tt : TreeType) (sess : Session)
    (cmd msg : String)
    (h : (parse_command cmd sess.tree tt).1 = .output msg)
    (_herr : IsErrorMsg msg) :
    (parse_command cmd sess.tree tt).2 = sess.tree ∧
    interactive_step tt sess cmd =
      .next ⟨sess.tree, sess.commands ++ ["> " ++ cmd, msg]⟩ := by
  have hpres : (parse_command cmd sess.tree tt).2 = sess.tree := by
    rcases parse_parts_preserves (pySplit (pyStrip cmd)) sess.tree tt with hp | hp
    · exact hp
    · rw [parse_command] at h
      rw [hp] at h
      simp at h
  have hfull : parse_command cmd sess.tree tt = (.output msg, sess.tree) :=
    Prod.ext h hpres
  have hne : ¬ (pyStrip cmd = "") := by
    intro he
    rw [parse_command, he] at h
    simp [pySplit, splitWsAux, parse_parts] at h
  refine ⟨hpres, ?_⟩
  rw [interactive_step, if_neg hne, hfull]

/-- Witness for C3 at the malformed command `s 0 abc` in a fresh session. -/
theorem claim3_witness :
    (parse_command "s 0 abc" freshTree .sum).2 = freshTree ∧
    interactive_step .sum ⟨freshTree, []⟩ "s 0 abc" =
      .next ⟨freshTree, ["> s 0 abc", invalidFormatMsg "abc"]⟩ :=
  claim3_error_preserves_session .sum ⟨freshTree, []⟩ "s 0 abc"
    (invalidFormatMsg "abc") rfl (Or.inl rfl)

/-- C4: for the value token of a set command with a valid index,
`inf`/`infinity` in any letter case store positive infinity,
`-inf`/`-infinity` store negative infinity, any other token is parsed as
an integer, and a token that is neither yields the `Invalid format`
parse-error result instead of a fatal error. -/
theorem claim4_value_token_parsing (c a b : String) (tree : List ExtVal)
    (tt : TreeType) (i : Int)
    (hc : pyLower c = "set" ∨ pyLower c = "s")
    (hn : tree.length = 16)
    (ha : pyInt a = some i) (hi : 0 ≤ i ∧ i < 16) :
    ((pyLower b = "inf" ∨ pyLower b = "infinity") →
      parse_parts [c, a, b] tree tt = (.silent, tree.set i.toNat .posInf)) ∧
    ((pyLower b = "-inf" ∨ pyLower b = "-infinity") →
      parse_parts [c, a, b] tree tt = (.silent, tree.set i.toNat .negInf)) ∧
    (¬(pyLower b = "inf" ∨ pyLower b = "infinity") →
     ¬(pyLower b = "-inf" ∨ pyLower b = "-infinity") →
      parse_value b = (pyInt b).map .fin) ∧
    (parse_value b = none →
      parse_parts [c, a, b] tree tt = (.output (invalidFormatMsg b), tree)) := by
  refine ⟨?_, ?_, ?_, ?_⟩
  · intro hb
    have hv : parse_value b = some .posInf := by simp [parse_value, hb]
    rcases hc with h | h <;> simp [parse_parts, h, ha, hv, hn, hi, pyStartsWith]
  · intro hb
    have hv : parse_value b = some .negInf := by
      simp [parse_value]
      rcases hb with hb | hb <;> simp [hb]
    rcases hc with h | h <;> simp [parse_parts, h, ha, hv, hn, hi, pyStartsWith]
  · intro h1 h2
    simp [parse_value, h1, h2]
  · intro hv
    rcases hc with h | h <;> simp [parse_parts, h, ha, hv, hn, hi, pyStartsWith]

/-- Witness for C4 at the concrete command `s 0 INF` on the all-zero
tree. -/
theorem claim4_witness :
    parse_parts ["s", "0", "INF"] freshTree .sum =
      (.silent, freshTree.set (Int.toNat 0) .posInf) :=
  (claim4_value_token_parsing "s" "0" "INF" freshTree .sum 0
    (Or.inr rfl) rfl rfl (by norm_num)).1 (Or.inl rfl)

/-- C5 counterexample: `quit` given one extra argument returns the Quit
result, not a usage error, contradicting the claim that every recognized
keyword (including quit/exit) reports wrong arity. -/
theorem claim5_counterexample_quit_arity :
    (parse_command "quit extra" freshTree .sum).1 = CmdResult.quit := rfl

/-- C5 (amended): set/s, add/a given other than 2 arguments yield the
usage error naming the expected arity and the arity received, query/q
likewise; quit/exit return Quit regardless of argument count. -/
theorem claim5_amended_usage_errors (c : String) (rest : List String)
    (tree : List ExtVal) (tt : TreeType) (h2 : rest.length ≠ 2) :
    ((pyLower c = "set" ∨ pyLower c = "s" ∨ pyLower c = "add" ∨ pyLower c = "a") →
      parse_parts (c :: rest) tree tt =
        (.output (usageMsgIdx (pyLower c) rest.length), tree)) ∧
    ((pyLower c = "query" ∨ pyLower c = "q") →
      parse_parts (c :: rest) tree tt =
        (.output (usageMsgRange (pyLower c) rest.length), tree)) ∧
    ((pyLower c = "quit" ∨ pyLower c = "exit") →
      parse_parts (c :: rest) tree tt = (.quit, tree)) := by
  refine ⟨fun h => ?_, fun h => ?_, fun h => ?_⟩
  · rcases h with h | h | h | h <;> simp [parse_parts, h, h2, pyStartsWith]
  · rcases h with h | h <;> simp [parse_parts, h, h2, pyStartsWith]
  · rcases h with h | h <;> simp [parse_parts, h, h2, pyStartsWith]

/-- Witness for the amended C5 at the concrete one-argument command
`s 1`. -/
theorem claim5_witness :
    parse_parts ["s", "1"] freshTree .sum =
      (.output (usageMsgIdx "s" 1), freshTree) :=
  (claim5_amended_usage_errors "s" ["1"] freshTree .sum (by decide)).1
    (Or.inr (Or.inl rfl))

/-- C6: an internal cell at level 0..3 is resolved by introspection at
node index 0 / 1+pos / 3+pos / 7+pos when the adapter exposes its
internal node array (of the usual 31 nodes or more), and by a range
aggregate over the sub-range starting at `pos * (16 / 2 ^ level)` of
width `16 / 2 ^ level` when no introspection is available. -/
theorem claim6_internal_cell_resolution (t : TreeAdapter) (level pos : Nat)
    (hl : level ≤ 3) (hp : pos < 2 ^ level) (hn : t.elems.length = 16)
    (hok : t.prodExc = none) :
    (∀ data : List ExtVal, t.internalData = some data → 15 ≤ data.length →
      get_tree_value (some t) level pos =
        extValStr (data.getD
          (if level = 0 then 0 else if level = 1 then 1 + pos
           else if level = 2 then 3 + pos else 7 + pos) (.fin 0))) ∧
    (t.internalData = none →
      get_tree_value (some t) level pos =
        extValStr (prodVal t (pos * (16 / 2 ^ level))
          ((pos + 1) * (16 / 2 ^ level)))) := by
  constructor
  · intro data hdata hlen
    interval_cases level <;> interval_cases pos <;>
      simp [get_tree_value, getTreeValueTry, hdata] <;>
      rw [if_pos (by omega)]
  · intro hdata
    interval_cases level <;> interval_cases pos <;>
      simp [get_tree_value, getTreeValueTry, hdata, hok, prodE, hn, Except.map]

/-- Witness for C6 at level 1, position 1 of an adapter exposing an
internal array of fives. -/
theorem claim6_witness : get_tree_value (some introAdapter) 1 1 = "5" := by
  have h := (claim6_internal_cell_resolution introAdapter 1 1 (by norm_num)
    (by norm_num) rfl rfl).1 (List.replicate 31 (.fin 5)) rfl (by norm_num)
  rw [h]
  rfl

/-- C7: when resolving an internal cell's display value fails (here: an
adapter without introspection whose aggregate calls raise), the renderer
degrades to the literal token `?` instead of propagating an error. -/
theorem claim7_render_failure_degrades (t : TreeAdapter) (level pos : Nat)
    (e : AdapterErr) (hl : level ≤ 3) (hfail : t.prodExc = some e)
    (hnodata : t.internalData = none) :
    get_tree_value (some t) level pos = "?" := by
  interval_cases level <;>
    simp [get_tree_value, getTreeValueTry, hnodata, hfail, prodE, Except.map]

/-- Witness for C7 at level 2, position 3 of the raising adapter. -/
theorem claim7_witness : get_tree_value (some failAdapter) 2 3 = "?" :=
  claim7_render_failure_degrades failAdapter 2 3 .attributeErr (by norm_num)
    rfl rfl

/-- C8 counterexample: with a 12-character value in leaf cell 0, the leaf
content row is 194 display columns while the root content row is 193, so
the content rows do not all span the same total width as the claim
states. -/
theorem claim8_counterexample_row_width :
    visWidth ((draw_tree_structure (some wideAdapter)).getD 18 []) = 194 ∧
    visWidth ((draw_tree_structure (some wideAdapter)).getD 2 []) = 193 := by
  constructor <;> decide

/-- C8 (amended): level `L` is assigned cell width
`LEAF_CELL_WIDTH * 2 ^ (4 - L)`, and every content row whose displayed
values each fit within their cell (length at most cell width minus one)
spans the same total visible width, 193 columns. -/
theorem claim8_amended_row_width (tree : Option TreeAdapter) (L : Nat)
    (hL : L ≤ 4)
    (hfit : ∀ i, i < 2 ^ L →
      (get_tree_value tree L i).length ≤ LEAF_CELL_WIDTH * 2 ^ (4 - L) - 1) :
    (draw_tree_structure tree).getD (2 + 4 * L) [] =
      contentLine tree L (2 ^ L) (LEAF_CELL_WIDTH * 2 ^ (4 - L)) ∧
    visWidth ((draw_tree_structure tree).getD (2 + 4 * L) []) = 193 := by
  interval_cases L
  · refine ⟨rfl, ?_⟩
    have h1 : (draw_tree_structure tree).getD 2 [] =
        contentLine tree 0 1 192 := rfl
    rw [h1, contentLine_width tree 0 1 192 (by norm_num)
      (by simpa [LEAF_CELL_WIDTH] using hfit)]
  · refine ⟨rfl, ?_⟩
    have h1 : (draw_tree_structure tree).getD 6 [] =
        contentLine tree 1 2 96 := rfl
    rw [h1, contentLine_width tree 1 2 96 (by norm_num)
      (by simpa [LEAF_CELL_WIDTH] using hfit)]
  · refine ⟨rfl, ?_⟩
    have h1 : (draw_tree_structure tree).getD 10 [] =
        contentLine tree 2 4 48 := rfl
    rw [h1, contentLine_width tree 2 4 48 (by norm_num)
      (by simpa [LEAF_CELL_WIDTH] using hfit)]
  · refine ⟨rfl, ?_⟩
    have h1 : (draw_tree_structure tree).getD 14 [] =
        contentLine tree 3 8 24 := rfl
    rw [h1, contentLine_width tree 3 8 24 (by norm_num)
      (by simpa [LEAF_CELL_WIDTH] using hfit)]
  · refine ⟨rfl, ?_⟩
    have h1 : (draw_tree_structure tree).getD 18 [] =
        contentLine tree 4 16 12 := rfl
    rw [h1, contentLine_width tree 4 16 12 (by norm_num)
      (by simpa [LEAF_CELL_WIDTH] using hfit)]

/-- Witness for the amended C8 at level 0 with no structure bound. -/
theorem claim8_witness :
    (draw_tree_structure none).getD 2 [] = contentLine none 0 1 192 ∧
    visWidth ((draw_tree_structure none).getD 2 []) = 193 :=
  claim8_amended_row_width none 0 (by norm_num)
    (by intro i hi; interval_cases i; decide)

/-- C9: the `/reset` command makes the loop continue with a freshly
created 16-element all-zero structure and an empty history, both
replaced in the same step. -/
theorem claim9_reset_atomic (tt : TreeType) (sess : Session) :
    interactive_step tt sess "/reset" = .next ⟨freshTree, []⟩ ∧
    freshTree.length = 16 :=
  ⟨rfl, rfl⟩

/-- C10: the pyramid renderer always returns exactly 22 display lines
(top border, five levels of padding/content/padding/border rows, and the
leaf-index row), for any structure argument including none. -/
theorem claim10_pyramid_height (tree : Option TreeAdapter) :
    (draw_tree_structure tree).length = 22 := rfl

end SegeeCLI
